import Mathlib

/-!
Verification of the Skill-Matching & Assessment Scoring Engine of the
TechSync repository (backend test scripts plus the scoring service they
exercise).  Pure parts of the code are embedded as Lean functions;
machine floats of the source are modelled as exact rationals.
-/

namespace TechSync

/-! ## Learning recommendation generation

Embedded from `backend/scripts/testRejectionAndLearningSystem.js`,
method `generateLearningRecommendations` (lines 230-295).
-/

/-- Difficulty labels used by learning recommendations
(`difficulty_level` strings of the source). -/
inductive Difficulty where
  | beginner
  | intermediate
  | advanced
deriving DecidableEq, Repr

/-- One `user_programming_languages` row joined with its
`programming_languages` name, as selected by the test script.
`proficiency_level` is the numeric level compared against 3 and 5
in the source. -/
structure LangEntry where
  languageName : String
  proficiency_level : Int
deriving DecidableEq, Repr

/-- One `user_topics` row joined with its `topics` name. -/
structure TopicEntry where
  topicName : String
  experience_level : Int
  interest_level : Int
deriving DecidableEq, Repr

/-- The `userData` argument of `generateLearningRecommendations`:
the user row with its language and topic joins.  A `null` join in the
source behaves exactly like an empty list (the guard
`if (list && list.length > 0)` skips the loop either way), so both are
modelled as `[]`. -/
structure UserData where
  user_programming_languages : List LangEntry
  user_topics : List TopicEntry
deriving DecidableEq, Repr

/-- The `userFailureData` argument: the aggregated failure summary with
`avgScore` (a float in the source, modelled exactly as a rational) and
`failureCount`. -/
structure FailureData where
  avgScore : Rat
  failureCount : Nat
deriving DecidableEq, Repr

/-- The recommendation objects pushed by `generateLearningRecommendations`,
one constructor per `type` string of the source
(`language`, `topic`, `fundamentals`, `practice`).  Fields mirror the
object literals: `language` carries `currentProficiency` and
`targetProficiency`, `topic` carries `currentExperience`, the two
failure-pattern constructors carry `avgScore`; each carries its
`difficulty`. -/
inductive LearningRec where
  | language (name : String) (currentProficiency targetProficiency : Int)
      (difficulty : Difficulty)
  | topic (name : String) (currentExperience : Int) (difficulty : Difficulty)
  | fundamentals (avgScore : Rat) (difficulty : Difficulty)
  | practice (avgScore : Rat) (difficulty : Difficulty)
deriving DecidableEq, Repr

/-- The language branch of the source loop (lines 235-257): proficiency
below 3 pushes a beginner recommendation, proficiency in [3,5) an
intermediate one, both targeting `proficiency + 1`; otherwise nothing. -/
def langRec (l : LangEntry) : Option LearningRec :=
  if l.proficiency_level < 3 then
    some (.language l.languageName l.proficiency_level
      (l.proficiency_level + 1) .beginner)
  else if l.proficiency_level < 5 then
    some (.language l.languageName l.proficiency_level
      (l.proficiency_level + 1) .intermediate)
  else
    none

/-- The topic branch of the source loop (lines 262-274): experience
level below 3 pushes a beginner topic recommendation. -/
def topicRec (t : TopicEntry) : Option LearningRec :=
  if t.experience_level < 3 then
    some (.topic t.topicName t.experience_level .beginner)
  else
    none

/-- The failure-pattern branch (lines 278-292): `avgScore < 40` pushes a
`fundamentals` beginner recommendation, else `avgScore < 60` pushes a
`practice` intermediate recommendation, else nothing. -/
def failureRecs (f : FailureData) : List LearningRec :=
  if f.avgScore < 40 then
    [.fundamentals f.avgScore .beginner]
  else if f.avgScore < 60 then
    [.practice f.avgScore .intermediate]
  else
    []

/-- `generateLearningRecommendations(userData, userFailureData)` of the
source: the `recommendations` array receives the language loop pushes,
then the topic loop pushes, then the failure-pattern push. -/
def generateLearningRecommendations (u : UserData) (f : FailureData) :
    List LearningRec :=
  u.user_programming_languages.filterMap langRec
    ++ u.user_topics.filterMap topicRec
    ++ failureRecs f

/-- Recognizer for `type: 'language'` recommendations. -/
def isLanguageRec : LearningRec → Bool
  | .language _ _ _ _ => true
  | _ => false

/-- Recognizer for `type: 'topic'` recommendations. -/
def isTopicRec : LearningRec → Bool
  | .topic _ _ _ => true
  | _ => false

/-- Recognizer for `type: 'fundamentals'` recommendations. -/
def isFundamentalsRec : LearningRec → Bool
  | .fundamentals _ _ => true
  | _ => false

/-- Recognizer for `type: 'practice'` recommendations. -/
def isPracticeRec : LearningRec → Bool
  | .practice _ _ => true
  | _ => false

/-- The `difficulty` field of a recommendation object. -/
def recDifficulty : LearningRec → Difficulty
  | .language _ _ _ d => d
  | .topic _ _ d => d
  | .fundamentals _ d => d
  | .practice _ d => d

/-! ## The scoring engine

The service object (`SkillMatchingService`) is exercised, but not
contained, by the repository scripts; the definitions below model it
from the specification, with the configuration constants pinned by the
scripts (`threshold = 55`, `minPassingScore = 70`, `maxAttempts = 8`).
-/

/-- Modelled from the spec: the ordinal proficiency scale of the
missing `SkillMatchingService` (beginner < intermediate < advanced <
expert). -/
inductive ProficiencyLevel where
  | beginner
  | intermediate
  | advanced
  | expert
deriving DecidableEq, Repr

/-- Numeric rank realizing the ordering of the proficiency scale. -/
def ProficiencyLevel.rank : ProficiencyLevel → Nat
  | .beginner => 1
  | .intermediate => 2
  | .advanced => 3
  | .expert => 4

/-- A user topic entry: name, experience level, interest level. -/
structure UserTopic where
  name : String
  experience_level : Int
  interest_level : Int
deriving DecidableEq, Repr

/-- A user language entry: name, ordinal proficiency, years of
experience. -/
structure UserLanguage where
  name : String
  proficiency : ProficiencyLevel
  years_experience : Rat
deriving DecidableEq, Repr

/-- A user profile snapshot consumed by the scoring engine. -/
structure UserProfile where
  yearsExperience : Rat
  topics : List UserTopic
  languages : List UserLanguage
deriving DecidableEq, Repr

/-- A project topic requirement with its primary flag. -/
structure ProjectTopic where
  name : String
  is_primary : Bool
deriving DecidableEq, Repr

/-- A project language requirement with required level and primary
flag. -/
structure ProjectLanguage where
  name : String
  required_level : ProficiencyLevel
  is_primary : Bool
deriving DecidableEq, Repr

/-- A candidate project profile. -/
structure ProjectProfile where
  projectId : Nat
  title : String
  requiredExperienceLevel : ProficiencyLevel
  topics : List ProjectTopic
  languages : List ProjectLanguage
deriving DecidableEq, Repr

/-- Clamp a rational into the closed interval [0, 100]. -/
def clampScore (x : Rat) : Rat := max 0 (min 100 x)

/-- Modelled from the spec: fixed aggregate weight for topic coverage
(weights sum to 1). -/
def weightTopicCoverage : Rat := 2 / 5

/-- Modelled from the spec: fixed aggregate weight for language
proficiency. -/
def weightLanguageProficiency : Rat := 7 / 20

/-- Modelled from the spec: fixed aggregate weight for difficulty
alignment. -/
def weightDifficultyAlignment : Rat := 1 / 4

/-- Modelled from the spec: fixed minimum recommendation threshold of
the missing `SkillMatchingService` (`skillMatching.threshold`, asserted
to be 55 by `testScoreThresholds`). -/
def recommendationThreshold : Rat := 55

/-- Modelled from the spec: fixed minimum passing score
(`skillMatching.minPassingScore`, asserted to be 70 by the scripts). -/
def minPassingScore : Nat := 70

/-- Modelled from the spec: fixed failed-attempt threshold
(`skillMatching.maxAttempts`, asserted to be 8 by the scripts and used
as `attempts.length >= this.maxAttempts` in
`testRejectionAndLearningSystem.js`). -/
def maxAttempts : Nat := 8

/-- Result of the topic scorer: score plus matched and missing project
topics. -/
structure TopicScoreResult where
  score : Rat
  matched : List ProjectTopic
  missing : List ProjectTopic
deriving DecidableEq, Repr

/-- Modelled from the spec: `topicCoverageScore` of the missing
`SkillMatchingService`.  A matched primary topic contributes the
dominant weight (85), matched secondary topics contribute up to 30 in
proportion to the fraction matched, and the total is clamped to
[0,100].  Unmatched project topics are reported in `missing`. -/
def topicCoverageScore (userTopics : List UserTopic)
    (projectTopics : List ProjectTopic) : TopicScoreResult :=
  let matched := projectTopics.filter
    (fun pt => userTopics.any (fun ut => ut.name == pt.name))
  let missing := projectTopics.filter
    (fun pt => !(userTopics.any (fun ut => ut.name == pt.name)))
  let anyPrimaryMatched : Rat :=
    if matched.any (fun pt => pt.is_primary) then 1 else 0
  let secondaries := projectTopics.filter (fun pt => !pt.is_primary)
  let matchedSecondaryFraction : Rat :=
    if secondaries.length = 0 then 0
    else ((matched.filter (fun pt => !pt.is_primary)).length : Rat)
      / (secondaries.length : Rat)
  { score := clampScore (100 * ((17 / 20) * anyPrimaryMatched
      + (3 / 10) * matchedSecondaryFraction))
    matched := matched
    missing := missing }

/-- Result of the language scorer: score, satisfied requirements,
insufficient-or-absent requirements, and the fraction of required
languages the user possesses at any level. -/
structure LanguageScoreResult where
  score : Rat
  matched : List ProjectLanguage
  gaps : List ProjectLanguage
  coverage : Rat
deriving DecidableEq, Repr

/-- Modelled from the spec: contribution of one required language in
`languageProficiencyScore`.  Meeting or exceeding the required level
scores the ceiling 100, possessing the language below the requirement
scores 40 (well under 50), a required language absent from the profile
scores 10 (under 20). -/
def langContribution (userLangs : List UserLanguage)
    (pl : ProjectLanguage) : Rat :=
  match userLangs.find? (fun ul => ul.name == pl.name) with
  | none => 10
  | some ul =>
    if pl.required_level.rank ≤ ul.proficiency.rank then 100 else 40

/-- Modelled from the spec: `languageProficiencyScore` of the missing
`SkillMatchingService`.  The score averages the per-requirement
contributions (a project with no language requirements scores the
ceiling); `coverage` is the fraction of required languages present in
the user profile. -/
def languageProficiencyScore (userLangs : List UserLanguage)
    (projLangs : List ProjectLanguage) : LanguageScoreResult :=
  let present := projLangs.filter
    (fun pl => userLangs.any (fun ul => ul.name == pl.name))
  let satisfied := projLangs.filter
    (fun pl => langContribution userLangs pl == 100)
  let gaps := projLangs.filter
    (fun pl => !(langContribution userLangs pl == 100))
  { score :=
      if projLangs.length = 0 then 100
      else (projLangs.map (langContribution userLangs)).sum
        / (projLangs.length : Rat)
    matched := satisfied
    gaps := gaps
    coverage :=
      if projLangs.length = 0 then 1
      else (present.length : Rat) / (projLangs.length : Rat) }

/-- Modelled from the spec: the years-of-experience breakpoint for each
required difficulty tier (beginner 0, intermediate 2, advanced 5,
expert 8). -/
def levelYears : ProficiencyLevel → Rat
  | .beginner => 0
  | .intermediate => 2
  | .advanced => 5
  | .expert => 8

/-- Modelled from the spec: `difficultyAlignmentScore` of the missing
`SkillMatchingService`.  Meeting or exceeding the tier breakpoint
scores the ceiling 100; below it the score degrades smoothly within
the band [30, 70), never collapsing to zero. -/
def difficultyAlignmentScore (userYears : Rat)
    (requiredLevel : ProficiencyLevel) : Rat :=
  if levelYears requiredLevel ≤ userYears then 100
  else 30 + 40 * (userYears / levelYears requiredLevel)

/-- Modelled from the spec: `aggregateScore` of the missing
`SkillMatchingService`, the fixed-weight combination of the three
component scores. -/
def aggregateScore (topicScore langScore diffScore : Rat) : Rat :=
  weightTopicCoverage * topicScore
    + weightLanguageProficiency * langScore
    + weightDifficultyAlignment * diffScore

/-- Modelled from the spec: the aggregate fitness score of a (user,
project) pair, driving the three component scorers. -/
def scoreProject (u : UserProfile) (p : ProjectProfile) : Rat :=
  aggregateScore
    (topicCoverageScore u.topics p.topics).score
    (languageProficiencyScore u.languages p.languages).score
    (difficultyAlignmentScore u.yearsExperience p.requiredExperienceLevel)

/-- Modelled from the spec: the match-factors explanation structure
(`buildMatchFactors`), carrying matched and missing topic and language
names plus the experience alignment score. -/
structure MatchFactors where
  topicMatches : List String
  topicGaps : List String
  languageMatches : List String
  languageGaps : List String
  experienceLevel : Rat
deriving DecidableEq, Repr

/-- Modelled from the spec: a recommendation item produced by
`recommendProjects`, carrying `projectId`, `title`, `score`,
`matchFactors`, and the technology tags used by diversity
re-ranking. -/
structure Recommendation where
  projectId : Nat
  title : String
  score : Rat
  matchFactors : MatchFactors
  technologies : List String
deriving DecidableEq, Repr

/-- Modelled from the spec: build the recommendation record for one
candidate project. -/
def mkRecommendation (u : UserProfile) (p : ProjectProfile) :
    Recommendation :=
  let ts := topicCoverageScore u.topics p.topics
  let ls := languageProficiencyScore u.languages p.languages
  let ds := difficultyAlignmentScore u.yearsExperience
    p.requiredExperienceLevel
  { projectId := p.projectId
    title := p.title
    score := aggregateScore ts.score ls.score ds
    matchFactors :=
      { topicMatches := ts.matched.map (fun pt => pt.name)
        topicGaps := ts.missing.map (fun pt => pt.name)
        languageMatches := ls.matched.map (fun pl => pl.name)
        languageGaps := ls.gaps.map (fun pl => pl.name)
        experienceLevel := ds }
    technologies := p.languages.map (fun pl => pl.name) }

/-- Insert a recommendation into a list sorted by non-increasing score,
after any earlier entry of equal or higher score (stable). -/
def insertDesc (r : Recommendation) : List Recommendation →
    List Recommendation
  | [] => [r]
  | x :: xs =>
    if x.score < r.score then r :: x :: xs else x :: insertDesc r xs

/-- Insertion sort by non-increasing score. -/
def sortDesc : List Recommendation → List Recommendation
  | [] => []
  | x :: xs => insertDesc x (sortDesc xs)

/-- Modelled from the spec: `recommend(user, candidates, limit)` of the
missing `SkillMatchingService` (`recommendProjects` in the scripts):
score every candidate, discard scores below the fixed threshold, sort
by descending score, truncate to `limit`. -/
def recommend (u : UserProfile) (candidates : List ProjectProfile)
    (limit : Nat) : List Recommendation :=
  let scored := candidates.map (mkRecommendation u)
  let qualified := scored.filter
    (fun r => recommendationThreshold ≤ r.score)
  (sortDesc qualified).take limit

/-- Modelled from the spec: the overlap penalty basis of
`diversityReRank` — the fraction of the candidate technology tags
already present among the selected technology tags. -/
def techOverlap (cand selectedTechs : List String) : Rat :=
  if cand.length = 0 then 0
  else ((cand.filter (fun t => selectedTechs.contains t)).length : Rat)
    / (cand.length : Rat)

/-- Modelled from the spec: the maximal-marginal-relevance value of a
candidate given the selected technology tags, on the 0-100 relevance
scale. -/
def mmrValue (w : Rat) (selectedTechs : List String)
    (r : Recommendation) : Rat :=
  (1 - w) * r.score - w * (100 * techOverlap r.technologies selectedTechs)

/-- Pick the first candidate attaining the maximal
maximal-marginal-relevance value, returning it together with the
remaining candidates in their original order. -/
def pickBest (w : Rat) (selectedTechs : List String) :
    List Recommendation → Option (Recommendation × List Recommendation)
  | [] => none
  | r :: rs =>
    match pickBest w selectedTechs rs with
    | none => some (r, [])
    | some (b, rest) =>
      if mmrValue w selectedTechs r < mmrValue w selectedTechs b then
        some (b, r :: rest)
      else
        some (r, rs)

/-- Greedy selection loop of `diversityReRank`, with fuel bounding the
number of picks. -/
def diversityGo (w : Rat) : Nat → List String → List Recommendation →
    List Recommendation
  | 0, _, _ => []
  | fuel + 1, selectedTechs, remaining =>
    match pickBest w selectedTechs remaining with
    | none => []
    | some (r, rest) =>
      r :: diversityGo w fuel (selectedTechs ++ r.technologies) rest

/-- Modelled from the spec: `diversityReRank(rankedRecommendations,
diversityWeight)` of the missing `SkillMatchingService`: repeatedly
pick the remaining candidate maximizing
`(1 - w) * relevance - w * overlapPenalty` against the technologies
selected so far. -/
def diversityReRank (l : List Recommendation) (w : Rat) :
    List Recommendation :=
  diversityGo w l.length [] l

/-! ## Code evaluation and assessment -/

/-- Input to `evaluateCode`: the source distinguishes JavaScript
`null`, `undefined`, and strings. -/
inductive CodeInput where
  | nullv
  | undef
  | text (s : String)
deriving DecidableEq, Repr

/-- Substring occurrence test used by the structural code heuristic. -/
def containsSub (s pat : String) : Bool := 2 ≤ (s.splitOn pat).length

/-- Count of nonblank lines of a code sample. -/
def nonTrivialLines (s : String) : Nat :=
  ((s.splitOn "\n").filter (fun l => 0 < l.trim.length)).length

/-- Modelled from the spec: `evaluateCode` of the missing
`SkillMatchingService`, a purely structural heuristic.  Null,
undefined, and empty input yield 0; otherwise independent additive
points for a function definition (25), a return statement (20), a
conditional (20), a loop (20), and more than 3 nonblank lines (15),
totalling at most 100. -/
def evaluateCode : CodeInput → Nat
  | .nullv => 0
  | .undef => 0
  | .text s =>
    if s = "" then 0
    else
      (if containsSub s "function" then 25 else 0)
        + (if containsSub s "return" then 20 else 0)
        + (if containsSub s "if" then 20 else 0)
        + (if containsSub s "for" || containsSub s "while" then 20 else 0)
        + (if 3 < nonTrivialLines s then 15 else 0)

/-- Modelled from the spec: `generateFeedback(score)` of the missing
`SkillMatchingService`, mapping score bands to tier-appropriate
messages, each longer than 20 characters. -/
def generateFeedback (score : Nat) : String :=
  if 90 ≤ score then
    "Excellent work! Your solution shows strong command of the fundamentals."
  else if 75 ≤ score then
    "Good job! Your solution covers most of what the challenge asked for."
  else if 60 ≤ score then
    "You are on the right track; keep practicing to strengthen your basics."
  else
    "This needs improvement: review the fundamentals and attempt it again."

/-- Result record of `assessCodingSkill`. -/
structure AssessmentResult where
  success : Bool
  score : Nat
  passed : Bool
  feedback : String
  canJoinProject : Bool
deriving DecidableEq, Repr

/-- Modelled from the spec: `assessCodingSkill(userId, projectId,
submittedCode, challengeId)` of the missing `SkillMatchingService`:
score the code, compare against the fixed passing threshold, generate
feedback, and report join eligibility equal to passing; a well-formed
submission always yields `success = true`. -/
def assessCodingSkill (userId projectId : Nat) (submittedCode : CodeInput)
    (challengeId : Nat) : AssessmentResult :=
  let score := evaluateCode submittedCode
  { success := true
    score := score
    passed := decide (minPassingScore ≤ score)
    feedback := generateFeedback score
    canJoinProject := decide (minPassingScore ≤ score) }

/-- Modelled from the spec: `needsLearningSupport(failedAttemptCount)`
of the missing `SkillMatchingService`, true exactly when the count
reaches the fixed `maxAttempts` threshold (the same comparison
`attempts.length >= this.maxAttempts` appears in the repository test
scripts). -/
def needsLearningSupport (failedAttemptCount : Nat) : Bool :=
  maxAttempts ≤ failedAttemptCount

/-! ## Concrete sample data for witnesses -/

/-- A sample user: 3 years of experience, one web topic, expert
JavaScript. -/
def sampleUser : UserProfile :=
  { yearsExperience := 3
    topics := [⟨"Web Development", 4, 5⟩]
    languages := [⟨"JavaScript", .expert, 5⟩] }

/-- A sample project matching `sampleUser` on its primary topic and
language. -/
def sampleProject : ProjectProfile :=
  { projectId := 1
    title := "Collaborative Web App"
    requiredExperienceLevel := .intermediate
    topics := [⟨"Web Development", true⟩]
    languages := [⟨"JavaScript", .intermediate, true⟩] }

/-- A user with an empty profile and no experience. -/
def zeroUser : UserProfile :=
  { yearsExperience := 0, topics := [], languages := [] }

/-- A project entirely mismatched with `zeroUser`. -/
def lowProject : ProjectProfile :=
  { projectId := 2
    title := "Compiler Internals"
    requiredExperienceLevel := .advanced
    topics := [⟨"Quantum Computing", true⟩]
    languages := [⟨"Haskell", .advanced, true⟩] }

/-- Empty match factors for hand-built recommendation samples. -/
def emptyFactors : MatchFactors :=
  { topicMatches := [], topicGaps := [], languageMatches := []
    languageGaps := [], experienceLevel := 0 }

/-- First mock recommendation of `testDiversityReRanking` (score 90,
JavaScript and React stack). -/
def rec90 : Recommendation :=
  { projectId := 10, title := "A", score := 90, matchFactors := emptyFactors
    technologies := ["JavaScript", "React", "Nodejs"] }

/-- Second mock recommendation (score 88, overlapping JavaScript and
React tags). -/
def rec88 : Recommendation :=
  { projectId := 11, title := "B", score := 88, matchFactors := emptyFactors
    technologies := ["JavaScript", "React", "Express"] }

/-- Third mock recommendation (score 85, Python stack). -/
def rec85 : Recommendation :=
  { projectId := 12, title := "C", score := 85, matchFactors := emptyFactors
    technologies := ["Python", "Django", "PostgreSQL"] }

/-- Fourth mock recommendation (score 82, Java stack). -/
def rec82 : Recommendation :=
  { projectId := 13, title := "D", score := 82, matchFactors := emptyFactors
    technologies := ["Java", "Spring", "MySQL"] }

/-- The ranked mock list of `testDiversityReRanking`, whose top two
entries share two technology tags. -/
def mockRecs : List Recommendation := [rec90, rec88, rec85, rec82]

/-! ## Helper lemmas about learning recommendations -/

lemma langRec_some_eq {l : LangEntry} {r : LearningRec}
    (h : langRec l = some r) :
    r = LearningRec.language l.languageName l.proficiency_level
        (l.proficiency_level + 1)
        (if l.proficiency_level < 3 then Difficulty.beginner
         else Difficulty.intermediate) := by
  unfold langRec at h
  split_ifs at h with h1 h2
  · rw [if_pos h1]
    exact (Option.some.inj h).symm
  · rw [if_neg h1]
    exact (Option.some.inj h).symm

lemma topicRec_some_eq {t : TopicEntry} {r : LearningRec}
    (h : topicRec t = some r) :
    r = LearningRec.topic t.topicName t.experience_level
        Difficulty.beginner := by
  unfold topicRec at h
  split_ifs at h <;> simp_all

lemma mem_gen_iff (u : UserData) (f : FailureData) (r : LearningRec) :
    r ∈ generateLearningRecommendations u f ↔
      (∃ l ∈ u.user_programming_languages, langRec l = some r)
      ∨ (∃ t ∈ u.user_topics, topicRec t = some r)
      ∨ r ∈ failureRecs f := by
  simp [generateLearningRecommendations, List.mem_append,
    List.mem_filterMap]

lemma isFund_mem_failureRecs (f : FailureData) :
    (∃ r ∈ failureRecs f, isFundamentalsRec r = true) ↔
      f.avgScore < 40 := by
  unfold failureRecs
  split_ifs with h1 h2 <;> simp [isFundamentalsRec, h1]

lemma isPrac_mem_failureRecs (f : FailureData) :
    (∃ r ∈ failureRecs f, isPracticeRec r = true) ↔
      (40 ≤ f.avgScore ∧ f.avgScore < 60) := by
  unfold failureRecs
  split_ifs with h1 h2
  · simp only [List.mem_singleton]
    constructor
    · rintro ⟨r, hr, hp⟩
      subst hr
      simp [isPracticeRec] at hp
    · rintro ⟨hge, _⟩
      exact absurd h1 (not_lt.mpr hge)
  · simp only [List.mem_singleton]
    constructor
    · rintro ⟨r, hr, _⟩
      subst hr
      exact ⟨not_lt.mp h1, h2⟩
    · intro _
      exact ⟨_, rfl, rfl⟩
  · simp only [List.not_mem_nil]
    constructor
    · rintro ⟨r, hr, _⟩
      exact absurd hr (by simp)
    · rintro ⟨hge, hlt⟩
      exact absurd hlt h2

/-! ## Bounds of the scoring pipeline -/

lemma clampScore_nonneg (x : Rat) : 0 ≤ clampScore x :=
  le_max_left 0 _

lemma clampScore_le_100 (x : Rat) : clampScore x ≤ 100 :=
  max_le (by norm_num) (min_le_left _ _)

lemma topicScore_nonneg (ut : List UserTopic) (pt : List ProjectTopic) :
    0 ≤ (topicCoverageScore ut pt).score :=
  clampScore_nonneg _

lemma topicScore_le_100 (ut : List UserTopic) (pt : List ProjectTopic) :
    (topicCoverageScore ut pt).score ≤ 100 :=
  clampScore_le_100 _

lemma langContribution_nonneg (ul : List UserLanguage)
    (pl : ProjectLanguage) : 0 ≤ langContribution ul pl := by
  unfold langContribution
  split
  · norm_num
  · split <;> norm_num

lemma langContribution_le_100 (ul : List UserLanguage)
    (pl : ProjectLanguage) : langContribution ul pl ≤ 100 := by
  unfold langContribution
  split
  · norm_num
  · split <;> norm_num

lemma sum_le_mul_length (l : List Rat) (c : Rat)
    (h : ∀ x ∈ l, x ≤ c) : l.sum ≤ c * l.length := by
  induction l with
  | nil => simp
  | cons x xs ih =>
    have hx := h x (by simp)
    have hxs := ih (fun y hy => h y (by simp [hy]))
    simp only [List.sum_cons, List.length_cons]
    push_cast
    linarith

lemma languageScore_nonneg (ul : List UserLanguage)
    (pl : List ProjectLanguage) :
    0 ≤ (languageProficiencyScore ul pl).score := by
  unfold languageProficiencyScore
  split_ifs with h
  · norm_num
  · apply div_nonneg
    · apply List.sum_nonneg
      intro x hx
      rcases List.mem_map.mp hx with ⟨q, _, rfl⟩
      exact langContribution_nonneg ul q
    · positivity

lemma languageScore_le_100 (ul : List UserLanguage)
    (pl : List ProjectLanguage) :
    (languageProficiencyScore ul pl).score ≤ 100 := by
  unfold languageProficiencyScore
  split_ifs with h
  · norm_num
  · have hpos : (0 : Rat) < pl.length := by
      have := Nat.pos_of_ne_zero h
      exact_mod_cast this
    rw [div_le_iff hpos]
    have := sum_le_mul_length (pl.map (langContribution ul)) 100 ?_
    · simpa using this
    · intro x hx
      rcases List.mem_map.mp hx with ⟨q, _, rfl⟩
      exact langContribution_le_100 ul q

lemma levelYears_nonneg (rl : ProficiencyLevel) : 0 ≤ levelYears rl := by
  cases rl <;> norm_num [levelYears]

lemma difficulty_nonneg (y : Rat) (rl : ProficiencyLevel) (hy : 0 ≤ y) :
    0 ≤ difficultyAlignmentScore y rl := by
  unfold difficultyAlignmentScore
  split_ifs
  · norm_num
  · have := div_nonneg hy (levelYears_nonneg rl)
    linarith

lemma difficulty_le_100 (y : Rat) (rl : ProficiencyLevel) :
    difficultyAlignmentScore y rl ≤ 100 := by
  unfold difficultyAlignmentScore
  split_ifs with h
  · norm_num
  · push_neg at h
    rcases eq_or_lt_of_le (levelYears_nonneg rl) with h0 | h0
    · rw [← h0, div_zero]
      norm_num
    · have : y / levelYears rl < 1 := (div_lt_one h0).mpr h
      linarith

lemma aggregateScore_nonneg {t l d : Rat} (ht : 0 ≤ t) (hl : 0 ≤ l)
    (hd : 0 ≤ d) : 0 ≤ aggregateScore t l d := by
  unfold aggregateScore weightTopicCoverage weightLanguageProficiency
    weightDifficultyAlignment
  linarith

lemma aggregateScore_le_100 {t l d : Rat} (ht : t ≤ 100) (hl : l ≤ 100)
    (hd : d ≤ 100) : aggregateScore t l d ≤ 100 := by
  unfold aggregateScore weightTopicCoverage weightLanguageProficiency
    weightDifficultyAlignment
  linarith

lemma scoreProject_le_100 (u : UserProfile) (p : ProjectProfile) :
    scoreProject u p ≤ 100 :=
  aggregateScore_le_100 (topicScore_le_100 _ _) (languageScore_le_100 _ _)
    (difficulty_le_100 _ _)

lemma evaluateCode_le_100 (c : CodeInput) : evaluateCode c ≤ 100 := by
  cases c with
  | nullv => norm_num [evaluateCode]
  | undef => norm_num [evaluateCode]
  | text s =>
    simp only [evaluateCode]
    split_ifs <;> norm_num

/-! ## Sorting lemmas for the recommendation ranker -/

lemma mem_insertDesc {r a : Recommendation} {l : List Recommendation} :
    a ∈ insertDesc r l ↔ a = r ∨ a ∈ l := by
  induction l with
  | nil => simp [insertDesc]
  | cons x xs ih =>
    unfold insertDesc
    split_ifs
    · simp [List.mem_cons]
    · simp [List.mem_cons, ih]
      tauto

lemma pairwise_insertDesc {r : Recommendation} {l : List Recommendation}
    (h : List.Pairwise (fun a b => b.score ≤ a.score) l) :
    List.Pairwise (fun a b => b.score ≤ a.score) (insertDesc r l) := by
  induction l with
  | nil => simp [insertDesc]
  | cons x xs ih =>
    rcases List.pairwise_cons.mp h with ⟨hx, hxs⟩
    unfold insertDesc
    split_ifs with hc
    · refine List.pairwise_cons.mpr ⟨?_, h⟩
      intro y hy
      rcases List.mem_cons.mp hy with rfl | hy
      · exact le_of_lt hc
      · exact le_trans (hx y hy) (le_of_lt hc)
    · refine List.pairwise_cons.mpr ⟨?_, ih hxs⟩
      intro y hy
      rcases mem_insertDesc.mp hy with rfl | hy
      · exact not_lt.mp hc
      · exact hx y hy

lemma mem_sortDesc {a : Recommendation} {l : List Recommendation} :
    a ∈ sortDesc l ↔ a ∈ l := by
  induction l with
  | nil => simp [sortDesc]
  | cons x xs ih =>
    unfold sortDesc
    rw [mem_insertDesc, ih]
    simp

lemma pairwise_sortDesc (l : List Recommendation) :
    List.Pairwise (fun a b => b.score ≤ a.score) (sortDesc l) := by
  induction l with
  | nil => simp [sortDesc]
  | cons x xs ih => exact pairwise_insertDesc ih

/-! ## Claim theorems -/

/-- C2: `evaluateCode` never raises for malformed input — `null`,
`undefined`, and the empty string each evaluate to exactly 0. -/
theorem evaluateCode_neutral_on_malformed :
    evaluateCode CodeInput.nullv = 0
    ∧ evaluateCode CodeInput.undef = 0
    ∧ evaluateCode (CodeInput.text "") = 0 := by
  refine ⟨rfl, rfl, ?_⟩
  decide

/-- C3: for every well-formed input, `assessCodingSkill` returns
`success = true`, `score = evaluateCode(submittedCode)`,
`passed` exactly when the score reaches the fixed passing score 70,
and `canJoinProject` equal to `passed`; a low-score submission is a
normal successful result, not an error. -/
theorem assessCodingSkill_spec (userId projectId challengeId : Nat)
    (submittedCode : CodeInput) :
    (assessCodingSkill userId projectId submittedCode
        challengeId).success = true
    ∧ (assessCodingSkill userId projectId submittedCode
        challengeId).score = evaluateCode submittedCode
    ∧ ((assessCodingSkill userId projectId submittedCode
        challengeId).passed = true ↔ 70 ≤ evaluateCode submittedCode)
    ∧ (assessCodingSkill userId projectId submittedCode
        challengeId).canJoinProject
      = (assessCodingSkill userId projectId submittedCode
        challengeId).passed := by
  refine ⟨rfl, rfl, ?_, rfl⟩
  simp [assessCodingSkill, minPassingScore]

/-- C4: `needsLearningSupport` is true exactly when the failed-attempt
count reaches the fixed `maxAttempts` threshold of 8; the boundary is
inclusive (false at 7, true at 8 and 9). -/
theorem needsLearningSupport_threshold :
    needsLearningSupport 7 = false
    ∧ needsLearningSupport 8 = true
    ∧ needsLearningSupport 9 = true
    ∧ ∀ n : Nat, needsLearningSupport n = true ↔ 8 ≤ n := by
  refine ⟨rfl, rfl, rfl, ?_⟩
  intro n
  simp [needsLearningSupport, maxAttempts]

/-- C5: every invocation of `generateLearningRecommendations` emits a
fundamentals recommendation exactly when the mean failed-attempt score
is below 40, a practice recommendation exactly when that mean is in
[40, 60), and never both. -/
theorem failure_pattern_recs (u : UserData) (f : FailureData) :
    ((∃ r ∈ generateLearningRecommendations u f,
        isFundamentalsRec r = true) ↔ f.avgScore < 40)
    ∧ ((∃ r ∈ generateLearningRecommendations u f,
        isPracticeRec r = true) ↔
          (40 ≤ f.avgScore ∧ f.avgScore < 60))
    ∧ ¬ ((∃ r ∈ generateLearningRecommendations u f,
          isFundamentalsRec r = true)
        ∧ (∃ r ∈ generateLearningRecommendations u f,
          isPracticeRec r = true)) := by
  have hfund : (∃ r ∈ generateLearningRecommendations u f,
      isFundamentalsRec r = true) ↔ f.avgScore < 40 := by
    constructor
    · rintro ⟨r, hr, hf⟩
      rcases (mem_gen_iff u f r).mp hr with ⟨l, _, he⟩ | ⟨t, _, he⟩ | hmem
      · rw [langRec_some_eq he] at hf
        simp [isFundamentalsRec] at hf
      · rw [topicRec_some_eq he] at hf
        simp [isFundamentalsRec] at hf
      · exact (isFund_mem_failureRecs f).mp ⟨r, hmem, hf⟩
    · intro h40
      refine ⟨LearningRec.fundamentals f.avgScore Difficulty.beginner,
        ?_, rfl⟩
      apply (mem_gen_iff u f _).mpr
      refine Or.inr (Or.inr ?_)
      simp [failureRecs, h40]
  have hprac : (∃ r ∈ generateLearningRecommendations u f,
      isPracticeRec r = true) ↔ (40 ≤ f.avgScore ∧ f.avgScore < 60) := by
    constructor
    · rintro ⟨r, hr, hf⟩
      rcases (mem_gen_iff u f r).mp hr with ⟨l, _, he⟩ | ⟨t, _, he⟩ | hmem
      · rw [langRec_some_eq he] at hf
        simp [isPracticeRec] at hf
      · rw [topicRec_some_eq he] at hf
        simp [isPracticeRec] at hf
      · exact (isPrac_mem_failureRecs f).mp ⟨r, hmem, hf⟩
    · rintro ⟨hge, hlt⟩
      refine ⟨LearningRec.practice f.avgScore Difficulty.intermediate,
        ?_, rfl⟩
      apply (mem_gen_iff u f _).mpr
      refine Or.inr (Or.inr ?_)
      simp [failureRecs, not_lt.mpr hge, hlt]
  refine ⟨hfund, hprac, ?_⟩
  rintro ⟨h1, h2⟩
  have := hfund.mp h1
  have := (hprac.mp h2).1
  linarith

/-- C6: for a user profile with no language and no topic entries and a
failure summary whose average score is at least the practice cutoff 60,
`generateLearningRecommendations` returns the empty list. -/
theorem empty_profile_high_avg_empty (f : FailureData)
    (h : 60 ≤ f.avgScore) :
    generateLearningRecommendations ⟨[], []⟩ f = [] := by
  have h40 : ¬ f.avgScore < 40 := by linarith
  have h60 : ¬ f.avgScore < 60 := by linarith
  simp [generateLearningRecommendations, failureRecs, h40, h60]

/-- Witness for C6 at a concrete summary with average score 75. -/
theorem empty_profile_high_avg_empty_witness :
    generateLearningRecommendations ⟨[], []⟩ ⟨75, 9⟩ = [] :=
  empty_profile_high_avg_empty ⟨75, 9⟩ (by norm_num)

/-- C9: the language-type recommendations of
`generateLearningRecommendations` are exactly one per user language
with proficiency below 5, targeting the current proficiency plus one,
labeled beginner below proficiency 3 and intermediate otherwise;
languages at or above 5 produce none. -/
theorem language_recs_spec (u : UserData) (f : FailureData) :
    (generateLearningRecommendations u f).filter isLanguageRec
      = u.user_programming_languages.filterMap
          (fun l =>
            if l.proficiency_level < 5 then
              some (LearningRec.language l.languageName
                l.proficiency_level (l.proficiency_level + 1)
                (if l.proficiency_level < 3 then Difficulty.beginner
                 else Difficulty.intermediate))
            else none) := by
  have hA : (u.user_programming_languages.filterMap langRec).filter
      isLanguageRec = u.user_programming_languages.filterMap langRec := by
    apply List.filter_eq_self.mpr
    intro r hr
    rcases List.mem_filterMap.mp hr with ⟨l, _, he⟩
    rw [langRec_some_eq he]
    rfl
  have hB : (u.user_topics.filterMap topicRec).filter
      isLanguageRec = [] := by
    apply List.filter_eq_nil_iff.mpr
    intro r hr
    rcases List.mem_filterMap.mp hr with ⟨t, _, he⟩
    rw [topicRec_some_eq he]
    simp [isLanguageRec]
  have hC : (failureRecs f).filter isLanguageRec = [] := by
    unfold failureRecs
    split_ifs <;> rfl
  have hfun : langRec = fun l : LangEntry =>
      if l.proficiency_level < 5 then
        some (LearningRec.language l.languageName
          l.proficiency_level (l.proficiency_level + 1)
          (if l.proficiency_level < 3 then Difficulty.beginner
           else Difficulty.intermediate))
      else none := by
    funext l
    unfold langRec
    by_cases h3 : l.proficiency_level < 3
    · have h5 : l.proficiency_level < 5 := by omega
      simp [h3, h5]
    · by_cases h5 : l.proficiency_level < 5 <;> simp [h3, h5]
  calc (generateLearningRecommendations u f).filter isLanguageRec
      = (u.user_programming_languages.filterMap langRec).filter
          isLanguageRec
        ++ ((u.user_topics.filterMap topicRec).filter isLanguageRec
        ++ (failureRecs f).filter isLanguageRec) := by
        simp [generateLearningRecommendations, List.filter_append]
    _ = u.user_programming_languages.filterMap langRec := by
        rw [hA, hB, hC]
        simp
    _ = _ := by rw [hfun]

/-- C10: every output of `generateLearningRecommendations` decomposes
into language-type recommendations, then topic-type recommendations
(all labeled beginner), then at most one failure-pattern
(fundamentals or practice) recommendation as the final element. -/
theorem learning_recs_shape (u : UserData) (f : FailureData) :
    ∃ A B C, generateLearningRecommendations u f = A ++ B ++ C
      ∧ (∀ r ∈ A, isLanguageRec r = true)
      ∧ (∀ r ∈ B, isTopicRec r = true
          ∧ recDifficulty r = Difficulty.beginner)
      ∧ (∀ r ∈ A ++ B, isFundamentalsRec r = false
          ∧ isPracticeRec r = false)
      ∧ (C = [] ∨ ∃ r0, C = [r0]
          ∧ (isFundamentalsRec r0 = true ∨ isPracticeRec r0 = true)) := by
  refine ⟨u.user_programming_languages.filterMap langRec,
    u.user_topics.filterMap topicRec, failureRecs f, rfl, ?_, ?_, ?_, ?_⟩
  · intro r hr
    rcases List.mem_filterMap.mp hr with ⟨l, _, he⟩
    rw [langRec_some_eq he]
    rfl
  · intro r hr
    rcases List.mem_filterMap.mp hr with ⟨t, _, he⟩
    rw [topicRec_some_eq he]
    exact ⟨rfl, rfl⟩
  · intro r hr
    rcases List.mem_append.mp hr with h | h
    · rcases List.mem_filterMap.mp h with ⟨l, _, he⟩
      rw [langRec_some_eq he]
      exact ⟨rfl, rfl⟩
    · rcases List.mem_filterMap.mp h with ⟨t, _, he⟩
      rw [topicRec_some_eq he]
      exact ⟨rfl, rfl⟩
  · unfold failureRecs
    split_ifs
    · exact Or.inr ⟨_, rfl, Or.inl rfl⟩
    · exact Or.inr ⟨_, rfl, Or.inr rfl⟩
    · exact Or.inl rfl

/-- C1: every recommendation returned by `recommend` has a score in
[55, 100] (with the threshold fixed at 55), the list is sorted by
non-increasing score, contains at most `limit` items, and when no
candidate clears the threshold the result is the empty list rather
than an error. -/
theorem recommend_spec (u : UserProfile)
    (candidates : List ProjectProfile) (limit : Nat) :
    (∀ r ∈ recommend u candidates limit,
      (55 : Rat) ≤ r.score ∧ r.score ≤ 100)
    ∧ List.Pairwise (fun a b => b.score ≤ a.score)
        (recommend u candidates limit)
    ∧ (recommend u candidates limit).length ≤ limit
    ∧ ((∀ p ∈ candidates, scoreProject u p < 55) →
        recommend u candidates limit = []) := by
  have hrec : recommend u candidates limit
      = (sortDesc ((candidates.map (mkRecommendation u)).filter
          (fun r => recommendationThreshold ≤ r.score))).take limit := rfl
  refine ⟨?_, ?_, ?_, ?_⟩
  · intro r hr
    rw [hrec] at hr
    have hsorted := List.take_subset limit _ hr
    have hq := mem_sortDesc.mp hsorted
    rcases List.mem_filter.mp hq with ⟨hmem, hpred⟩
    have hth : recommendationThreshold ≤ r.score := of_decide_eq_true hpred
    rcases List.mem_map.mp hmem with ⟨p, _, rfl⟩
    refine ⟨?_, scoreProject_le_100 u p⟩
    have : recommendationThreshold = (55 : Rat) := by
      norm_num [recommendationThreshold]
    rw [← this]
    exact hth
  · rw [hrec]
    exact (pairwise_sortDesc _).sublist (List.take_sublist _ _)
  · rw [hrec]
    simp [List.length_take]
  · intro hall
    have hfil : (candidates.map (mkRecommendation u)).filter
        (fun r => recommendationThreshold ≤ r.score) = [] := by
      apply List.filter_eq_nil_iff.mpr
      intro r hmem
      rcases List.mem_map.mp hmem with ⟨p, hp, rfl⟩
      have hlt : scoreProject u p < 55 := hall p hp
      have : ¬ recommendationThreshold ≤ (mkRecommendation u p).score := by
        have hsc : (mkRecommendation u p).score = scoreProject u p := rfl
        rw [hsc]
        norm_num [recommendationThreshold]
        linarith
      simpa using this
    rw [hrec, hfil]
    simp [sortDesc]

/-- Witness for C1: the mismatched candidate scores below the
threshold, so the returned list is empty (and not an error). -/
theorem recommend_spec_witness :
    recommend zeroUser [lowProject] 5 = [] := by
  apply (recommend_spec zeroUser [lowProject] 5).2.2.2
  intro p hp
  rw [List.mem_singleton] at hp
  subst hp
  norm_num +decide [scoreProject, aggregateScore, topicCoverageScore,
    languageProficiencyScore, difficultyAlignmentScore, langContribution,
    clampScore, levelYears, weightTopicCoverage, weightLanguageProficiency,
    weightDifficultyAlignment, zeroUser, lowProject]

/-- C7: for every valid (user, project) pair the topic, language, and
difficulty component scores and the aggregate score lie in [0, 100],
and `evaluateCode` is bounded by 100 on arbitrary input. -/
theorem scores_bounded (u : UserProfile) (p : ProjectProfile)
    (hy : 0 ≤ u.yearsExperience) :
    (0 ≤ (topicCoverageScore u.topics p.topics).score
      ∧ (topicCoverageScore u.topics p.topics).score ≤ 100)
    ∧ (0 ≤ (languageProficiencyScore u.languages p.languages).score
      ∧ (languageProficiencyScore u.languages p.languages).score ≤ 100)
    ∧ (0 ≤ difficultyAlignmentScore u.yearsExperience
          p.requiredExperienceLevel
      ∧ difficultyAlignmentScore u.yearsExperience
          p.requiredExperienceLevel ≤ 100)
    ∧ (0 ≤ scoreProject u p ∧ scoreProject u p ≤ 100)
    ∧ ∀ code : CodeInput, evaluateCode code ≤ 100 := by
  refine ⟨⟨topicScore_nonneg _ _, topicScore_le_100 _ _⟩,
    ⟨languageScore_nonneg _ _, languageScore_le_100 _ _⟩,
    ⟨difficulty_nonneg _ _ hy, difficulty_le_100 _ _⟩,
    ⟨?_, scoreProject_le_100 u p⟩,
    evaluateCode_le_100⟩
  exact aggregateScore_nonneg (topicScore_nonneg _ _)
    (languageScore_nonneg _ _) (difficulty_nonneg _ _ hy)

/-- Witness for C7 at a concrete matching user and project. -/
theorem scores_bounded_witness :
    0 ≤ scoreProject sampleUser sampleProject
    ∧ scoreProject sampleUser sampleProject ≤ 100 :=
  (scores_bounded sampleUser sampleProject
    (by norm_num [sampleUser])).2.2.2.1

lemma mmrValue_zero (sel : List String) (r : Recommendation) :
    mmrValue 0 sel r = r.score := by
  unfold mmrValue
  ring

lemma pickBest_eq_none {w : Rat} {sel : List String}
    {l : List Recommendation} :
    pickBest w sel l = none ↔ l = [] := by
  cases l with
  | nil => simp [pickBest]
  | cons x xs =>
    unfold pickBest
    constructor
    · intro h
      rcases hxs : pickBest w sel xs with _ | ⟨b, rest⟩ <;>
        rw [hxs] at h <;> simp at h
      split_ifs at h <;> simp_all
    · intro h
      cases h

lemma pickBest_fst_mem {w : Rat} {sel : List String}
    {l : List Recommendation} {b : Recommendation}
    {rest : List Recommendation} (h : pickBest w sel l = some (b, rest)) :
    b ∈ l := by
  induction l generalizing b rest with
  | nil => simp [pickBest] at h
  | cons x xs ih =>
    unfold pickBest at h
    rcases hxs : pickBest w sel xs with _ | ⟨c, crest⟩ <;> rw [hxs] at h
    · simp only [Option.some.injEq, Prod.mk.injEq] at h
      rcases h with ⟨rfl, _⟩
      exact List.mem_cons_self _ _
    · have h2 : (if mmrValue w sel x < mmrValue w sel c then
          some (c, x :: crest) else some (x, xs)) = some (b, rest) := h
      split_ifs at h2 <;> simp only [Option.some.injEq, Prod.mk.injEq] at h2
      · rcases h2 with ⟨rfl, _⟩
        exact List.mem_cons_of_mem _ (ih hxs)
      · rcases h2 with ⟨rfl, _⟩
        exact List.mem_cons_self _ _

lemma pickBest_head_max {w : Rat} {sel : List String}
    {x : Recommendation} {xs : List Recommendation}
    (h : ∀ y ∈ xs, mmrValue w sel y ≤ mmrValue w sel x) :
    pickBest w sel (x :: xs) = some (x, xs) := by
  unfold pickBest
  rcases hxs : pickBest w sel xs with _ | ⟨b, rest⟩
  · rw [pickBest_eq_none.mp hxs]
  · have hb := h b (pickBest_fst_mem hxs)
    show (if mmrValue w sel x < mmrValue w sel b then
        some (b, x :: rest) else some (x, xs)) = some (x, xs)
    rw [if_neg (not_lt.mpr hb)]

lemma diversityGo_zero_sorted : ∀ (fuel : Nat) (l : List Recommendation)
    (sel : List String), l.length ≤ fuel →
    List.Pairwise (fun a b => b.score ≤ a.score) l →
    diversityGo 0 fuel sel l = l := by
  intro fuel
  induction fuel with
  | zero =>
    intro l sel hlen _
    rw [List.length_eq_zero.mp (Nat.le_zero.mp hlen)]
    rfl
  | succ n ih =>
    intro l sel hlen hp
    cases l with
    | nil => rfl
    | cons x xs =>
      rcases List.pairwise_cons.mp hp with ⟨hx, hxs⟩
      have hmax : ∀ y ∈ xs, mmrValue 0 sel y ≤ mmrValue 0 sel x := by
        intro y hy
        rw [mmrValue_zero, mmrValue_zero]
        exact hx y hy
      have hlen2 : xs.length ≤ n := by
        simp only [List.length_cons] at hlen
        omega
      unfold diversityGo
      rw [pickBest_head_max hmax]
      show x :: diversityGo 0 n (sel ++ x.technologies) xs = x :: xs
      rw [ih xs (sel ++ x.technologies) hlen2 hxs]

/-- C8 counterexample: at the small positive diversity weight 1/100 on
the ranked mock list whose top two entries share two technology tags,
`diversityReRank` returns the input order unchanged, so a positive
weight does not always change the order. -/
theorem diversityReRank_small_weight_preserves_order :
    List.Pairwise (fun a b => b.score ≤ a.score) mockRecs
    ∧ ("JavaScript" ∈ rec90.technologies
      ∧ "JavaScript" ∈ rec88.technologies)
    ∧ (0 : Rat) < 1 / 100
    ∧ diversityReRank mockRecs (1 / 100) = mockRecs := by
  refine ⟨?_, ⟨?_, ?_⟩, by norm_num, ?_⟩
  · norm_num [mockRecs, rec90, rec88, rec85, rec82, List.pairwise_cons]
  · simp [rec90]
  · simp [rec88]
  · norm_num +decide [diversityReRank, diversityGo, pickBest, mmrValue,
      techOverlap, mockRecs, rec90, rec88, rec85, rec82, emptyFactors]

/-- C8 (amended): `diversityReRank` preserves the order of every
ranked list at weight zero and maps the empty list to the empty list;
at the tested weight 1/4 on the mock list with overlapping top
technology tags the output order differs from the input order. -/
theorem diversityReRank_spec :
    (∀ l : List Recommendation,
      List.Pairwise (fun a b => b.score ≤ a.score) l →
        diversityReRank l 0 = l)
    ∧ (∀ w : Rat, diversityReRank [] w = [])
    ∧ ((0 : Rat) < 1 / 4
      ∧ diversityReRank mockRecs (1 / 4) ≠ mockRecs) := by
  refine ⟨?_, ?_, by norm_num, ?_⟩
  · intro l hp
    exact diversityGo_zero_sorted l.length l [] le_rfl hp
  · intro w
    rfl
  · norm_num +decide [diversityReRank, diversityGo, pickBest, mmrValue,
      techOverlap, mockRecs, rec90, rec88, rec85, rec82, emptyFactors]

/-- Witness for the amended C8 at the concrete mock list and weight
zero. -/
theorem diversityReRank_spec_witness :
    diversityReRank mockRecs 0 = mockRecs := by
  apply diversityReRank_spec.1
  norm_num [mockRecs, rec90, rec88, rec85, rec82, List.pairwise_cons]

end TechSync
